import Mathlib

/-!
Verification development for the JIRA/Confluence assistant repository.

The Python sources are shallowly embedded:
* `mcp_client.py` — schema adapter (`update_llm_tools_schema`), literal-call
  dispatch and argument extraction, the LLM multi-tool-call loop, result
  normalization and the response-composer prompt selection
  (all inside `process_query`);
* `mcp_server_jira.py` — `get_jira_client` / `create_ticket`;
* `test_jira_mcp_server_addl_funct.py` — the alternative `create_ticket`;
* `mcp_server_confluence.py` — `get_jira_project_status` /
  `create_confluence_report`.

Python values are modelled by `PyValue`; Python exceptions by `Except String`
(`Except.error` = an exception propagating); external library calls
(the `jira`/`atlassian` clients, the OpenAI client, `json.dumps`, `str`,
`eval`) are abstracted as function parameters of the embedded code.
Python strings are Lean `String`s, and the string methods used by the source
(`strip`, `split`, `rstrip`, `startswith`, `in`) are re-implemented below
over `List Char` with Python's semantics.
-/

set_option autoImplicit false

namespace McpAssistant

/-- Model of a Python runtime value as used by this repository:
strings, ints, booleans, `None`, lists, and string-keyed dicts
(a dict is an insertion-ordered association list, as in Python). -/
inductive PyValue where
  | str : String → PyValue
  | int : Int → PyValue
  | bool : Bool → PyValue
  | pynone : PyValue
  | list : List PyValue → PyValue
  | dict : List (String × PyValue) → PyValue
  deriving Inhabited

/-! ## Python string primitives over `List Char` -/

/-- Whitespace characters removed by Python's `str.strip()`. -/
def pyIsSpace (c : Char) : Bool :=
  c == ' ' || c == '\t' || c == '\n' || c == '\r' || c == Char.ofNat 11 || c == Char.ofNat 12

/-- Python `str.lstrip`-style removal of leading characters satisfying `p`. -/
def lstripP (p : Char → Bool) (l : List Char) : List Char :=
  l.dropWhile p

/-- Python `str.rstrip`-style removal of trailing characters satisfying `p`. -/
def rstripP (p : Char → Bool) (l : List Char) : List Char :=
  (l.reverse.dropWhile p).reverse

/-- Python `str.strip`-style removal at both ends. -/
def stripP (p : Char → Bool) (l : List Char) : List Char :=
  lstripP p (rstripP p l)

/-- Python `s.split(sep)` for a one-character separator: always returns at
least one (possibly empty) piece, so `"".split(',') == ['']`. -/
def splitC (c : Char) : List Char → List (List Char)
  | [] => [[]]
  | x :: xs =>
    match splitC c xs with
    | [] => [[]]
    | y :: ys => if x == c then [] :: y :: ys else (x :: y) :: ys

/-- Python `s.split(sep, 1)` for a one-character separator, as the pair of
pieces around the first occurrence; `none` when the separator is absent
(in which case Python's `split` returns a single piece). -/
def splitOnceC (c : Char) : List Char → Option (List Char × List Char)
  | [] => none
  | x :: xs =>
    if x == c then some ([], xs)
    else (splitOnceC c xs).map (fun p => (x :: p.1, p.2))

/-- Python `s.startswith(pre)`. -/
def startsWithL : List Char → List Char → Bool
  | [], _ => true
  | _ :: _, [] => false
  | a :: as, b :: bs => a == b && startsWithL as bs

/-- Python `c in s` for a single character `c`. -/
def containsC (c : Char) (l : List Char) : Bool :=
  l.any (· == c)

/-- Python `needle in hay` for strings (substring containment). -/
def isSubstrL (needle : List Char) : List Char → Bool
  | [] => needle.isEmpty
  | x :: xs => startsWithL needle (x :: xs) || isSubstrL needle xs

/-- Python `str.strip(chars)`: remove leading and trailing characters drawn
from the given set. -/
def stripCharsL (set : List Char) (l : List Char) : List Char :=
  stripP (fun c => set.contains c) l

/-- The quote characters of `value.strip().strip("'\"")` in `process_query`
(an apostrophe and a double quote). -/
def quoteChars : List Char := [Char.ofNat 39, Char.ofNat 34]

/-- Python `str.strip()` on a Lean `String`. -/
def pyStrip (s : String) : String :=
  String.mk (stripP pyIsSpace s.data)

/-- Python `s.strip("'\"")` on a Lean `String`. -/
def pyStripQuotes (s : String) : String :=
  String.mk (stripCharsL quoteChars s.data)

/-- Python substring containment on Lean `String`s. -/
def pyIsSubstr (needle hay : String) : Bool :=
  isSubstrL needle.data hay.data

/-! ## Python dict primitives -/

/-- Lookup of a string key in an embedded dict (Python `d[k]` / `k in d`). -/
def pyLookup (l : List (String × PyValue)) (k : String) : Option PyValue :=
  match l with
  | [] => none
  | (k', v) :: rest => if k' == k then some v else pyLookup rest k

/-- Python `d[k] = v`: replace the value in place when the key is present
(preserving insertion order), otherwise append a new entry. -/
def pyDictInsert (l : List (String × PyValue)) (k : String) (v : PyValue) :
    List (String × PyValue) :=
  if l.any (fun p => p.1 == k) then
    l.map (fun p => if p.1 == k then (k, v) else p)
  else l ++ [(k, v)]

/-- Python `d.get(k, default)`. -/
def pyGetD (l : List (String × PyValue)) (k : String) (d : PyValue) : PyValue :=
  match pyLookup l k with
  | some v => v
  | none => d

/-- Python truthiness of an embedded value (`if x:`). -/
def pyTruthy : PyValue → Bool
  | .str s => !(s == "")
  | .int n => !(n == 0)
  | .bool b => b
  | .pynone => false
  | .list l => !l.isEmpty
  | .dict l => !l.isEmpty

/-! ## Tool descriptors and the schema adapter (`update_llm_tools_schema`) -/

/-- A tool descriptor as seen by `mcp_client.py`: a name, a description, and
the two possible schema attributes probed by `getattr`. A field value of
`none` models an absent attribute (in which case `getattr` yields its
default), while `some PyValue.pynone` models an attribute whose value is
Python `None`. -/
structure ToolDesc where
  name : String
  description : String
  parameters : Option PyValue
  inputSchema : Option PyValue

/-- The schema value computed by `update_llm_tools_schema` before its
`isinstance(..., dict)` check:
`parameters = getattr(tool, 'parameters', None)`, and when that is `None`,
`parameters = getattr(tool, 'inputSchema', {})`. -/
def rawSchema (t : ToolDesc) : PyValue :=
  let ps : PyValue :=
    match t.parameters with
    | some v => v
    | none => PyValue.pynone
  match ps with
  | PyValue.pynone =>
    match t.inputSchema with
    | some w => w
    | none => PyValue.dict []
  | v => v

/-- The schema after `if not isinstance(parameters, dict): parameters = {}`:
the entries of the schema dict, with every non-dict coerced to empty. -/
def coercedSchema (t : ToolDesc) : List (String × PyValue) :=
  match rawSchema t with
  | PyValue.dict l => l
  | _ => []

/-- One entry of the LLM tool schema built by `update_llm_tools_schema`:
`{type: "function", function: {name, description,
parameters: {type: "object", properties, required}}}` with
`properties = parameters.get("properties", {})` and
`required = parameters.get("required", [])`. -/
def llmToolEntry (t : ToolDesc) : PyValue :=
  PyValue.dict
    [("type", PyValue.str "function"),
     ("function", PyValue.dict
       [("name", PyValue.str t.name),
        ("description", PyValue.str t.description),
        ("parameters", PyValue.dict
          [("type", PyValue.str "object"),
           ("properties", pyGetD (coercedSchema t) "properties" (PyValue.dict [])),
           ("required", pyGetD (coercedSchema t) "required" (PyValue.list []))])])]

/-- The full schema list built by `update_llm_tools_schema`. -/
def update_llm_tools_schema (ts : List ToolDesc) : List PyValue :=
  ts.map llmToolEntry

/-! ## Literal-call dispatch (`process_query`, direct tool-call branch)

`eval` on the value token is abstracted as a parameter
`litEval : String → Option PyValue` (`some` = evaluation succeeded with the
given value, `none` = `eval` raised and the bare `except` fired). The remote
call `client.call_tool` is abstracted as
`callTool : String → List (String × PyValue) → Except String PyValue`
(`Except.error` = the call raised an exception with the given message). -/

/-- One iteration of the `for arg in args_pairs:` loop of `process_query`,
acting on an already-stripped piece `arg`: pieces with no `=` are skipped;
otherwise the piece is split at its first `=`, the key is stripped, and the
value token is `eval`-ed after stripping, falling back to the stripped token
with surrounding quote characters removed; the pair is assigned into the
argument dict. -/
def argStep (litEval : String → Option PyValue)
    (acc : List (String × PyValue)) (arg : List Char) : List (String × PyValue) :=
  if containsC '=' arg then
    match splitOnceC '=' arg with
    | some (k, v) =>
      let key := String.mk (stripP pyIsSpace k)
      let x :=
        match litEval (String.mk (stripP pyIsSpace v)) with
        | some lit => lit
        | none => PyValue.str (String.mk (stripCharsL quoteChars (stripP pyIsSpace v)))
      pyDictInsert acc key x
    | none => acc
  else acc

/-- Argument extraction from the parenthesized segment, translated from
`process_query`: split on commas, strip each piece, and fold the per-piece
assignment over the pieces. -/
def extractArgs (litEval : String → Option PyValue) (argsStr : String) :
    List (String × PyValue) :=
  ((splitC ',' argsStr.data).map (stripP pyIsSpace)).foldl (argStep litEval) []

/-- The interpretation applied to a single value token: `eval` of the
stripped token, with the fallback to the stripped token with surrounding
quote characters removed. -/
def parseLit (litEval : String → Option PyValue) (v : String) : PyValue :=
  match litEval (pyStrip v) with
  | some lit => lit
  | none => PyValue.str (pyStripQuotes (pyStrip v))

/-- Literal-call detection, translated from the
`for tool in st.session_state.available_tools:` loop: the first descriptor in
registry order such that `user_query.strip().startswith(f"{tool.name}(")`. -/
def findLitTool (reg : List ToolDesc) (q : String) : Option ToolDesc :=
  reg.find? (fun t => startsWithL (t.name ++ "(").data (stripP pyIsSpace q.data))

/-- The value held by `mcp_result` in `process_query`: either the object
returned by `client.call_tool` (which carries a `data` attribute), or a plain
Python value (an error dict built locally, or the LLM's free-text content). -/
inductive McpResult where
  | callResult (data : PyValue)
  | plain (v : PyValue)

/-- The per-call behaviour of the guarded `client.call_tool` invocation:
a successful call stores the call result, a raised exception is caught and
stores `{"error": str(e)}`. -/
def wrapCall (callTool : String → List (String × PyValue) → Except String PyValue)
    (name : String) (args : List (String × PyValue)) : McpResult :=
  match callTool name args with
  | Except.ok v => McpResult.callResult v
  | Except.error e => McpResult.plain (PyValue.dict [("error", PyValue.str e)])

/-- The literal-call branch of `process_query`. Returns `none` when no
registered tool name matches (the query falls through to the LLM branch);
otherwise returns the list of performed tool invocations (name and argument
dict, in order), the resulting `mcp_result`, and `tool_name`.
The `splitOnceC` miss branch models the `IndexError` of
`user_query.split('(', 1)[1]` being caught by the outer
`except Exception as e` with `mcp_result = {"error": f"Invalid arguments for
{tool_name}: {e}"}` and no invocation performed. -/
def dispatchLiteral (litEval : String → Option PyValue)
    (callTool : String → List (String × PyValue) → Except String PyValue)
    (reg : List ToolDesc) (q : String) :
    Option (List (String × List (String × PyValue)) × McpResult × Option String) :=
  match findLitTool reg q with
  | none => none
  | some t =>
    match splitOnceC '(' q.data with
    | none =>
      some ([],
        McpResult.plain (PyValue.dict
          [("error", PyValue.str ("Invalid arguments for " ++ t.name ++ ": list index out of range"))]),
        some t.name)
    | some (_, afterParen) =>
      let argsStr := String.mk (rstripP (fun c => c == ')') afterParen)
      let args := extractArgs litEval argsStr
      some ([(t.name, args)], wrapCall callTool t.name args, some t.name)

/-! ## LLM-selected tool calls (`process_query`, `if tool_calls:` loop) -/

/-- The `for tool_call in tool_calls:` loop: each requested call is invoked
in order (appended to the invocation log) and `mcp_result` / `tool_name` are
overwritten by each iteration. Argument strings are taken as already parsed
by `json.loads` (the provider guarantees JSON-encoded arguments). -/
def llmToolCalls (callTool : String → List (String × PyValue) → Except String PyValue)
    (calls : List (String × List (String × PyValue))) :
    List (String × List (String × PyValue)) × Option McpResult × Option String :=
  calls.foldl
    (fun acc c => (acc.1 ++ [c], some (wrapCall callTool c.1 c.2), some c.1))
    ([], none, none)

/-! ## Result normalization and response composition (`process_query`, tail)

Python's `str` builtin and `json.dumps` are abstracted as parameters
`strFn dumpsFn : PyValue → String`. -/

/-- Result normalization:
`if isinstance(mcp_result, str): ... elif hasattr(mcp_result, 'data'): ...
else: tool_result_data = str(mcp_result)`. A plain Python dict has no `data`
attribute, so only a `call_tool` result reaches the second branch. -/
def normalizeResult (strFn : PyValue → String) : McpResult → PyValue
  | McpResult.plain (PyValue.str s) => PyValue.str s
  | McpResult.callResult d => d
  | McpResult.plain v => PyValue.str (strFn v)

/-- Python truthiness of `tool_name` in `elif tool_name:`. -/
def toolNameTruthy : Option String → Bool
  | none => false
  | some s => !(s == "")

/-- Rendering of `tool_name` inside an f-string (`None` when null). -/
def fmtOptStr : Option String → String
  | none => "None"
  | some s => s

/-- The failure prompt built when
`isinstance(tool_result_data, dict) and "error" in tool_result_data`. -/
def failureText (strFn : PyValue → String) (q : String) (tn : Option String)
    (ev : PyValue) : String :=
  "User asked: " ++ q ++ "\n\nTool \x27" ++ fmtOptStr tn ++ "\x27 failed with error:\n"
    ++ strFn ev ++ "\n\nInform the user of the failure and suggest next steps."

/-- The remaining two branches: the acknowledgment prompt embedding
`json.dumps(tool_result_data, indent=2)` when `tool_name` is truthy, else the
raw utterance. -/
def composeRest (dumpsFn : PyValue → String) (q : String) (tn : Option String)
    (trd : PyValue) : String :=
  if toolNameTruthy tn then
    "User asked: " ++ q ++ "\n\nTool result from \x27" ++ fmtOptStr tn ++ "\x27:\n"
      ++ dumpsFn trd ++ "\n\nAnswer concisely, acknowledging the tool use."
  else q

/-- Prompt selection over the normalized `tool_result_data`. -/
def composePrompt (strFn dumpsFn : PyValue → String) (q : String)
    (tn : Option String) (trd : PyValue) : String :=
  match trd with
  | PyValue.dict l =>
    match pyLookup l "error" with
    | some ev => failureText strFn q tn ev
    | none => composeRest dumpsFn q tn (PyValue.dict l)
  | v => composeRest dumpsFn q tn v

/-- The composer stage applied to a raw `mcp_result`. -/
def composeStage (strFn dumpsFn : PyValue → String) (q : String)
    (tn : Option String) (r : McpResult) : String :=
  composePrompt strFn dumpsFn q tn (normalizeResult strFn r)

/-- The source's own failure-branch test,
`isinstance(tool_result_data, dict) and "error" in tool_result_data`. -/
def composerPicksFailure : PyValue → Bool
  | PyValue.dict l => (pyLookup l "error").isSome
  | _ => false

/-- The final LLM call producing `bot_reply`: the LLM's text on success, the
literal fallback string embedding `str(e)` when the guarded block raises. -/
def finalReply (llm : String → Except String String) (finalPrompt : String) : String :=
  match llm finalPrompt with
  | Except.ok t => t
  | Except.error e => "I encountered an error generating a response: " ++ e

/-- Concrete stand-in for the abstract `str` parameter, used only to
instantiate closed witnesses (the composer theorems hold for every such
function). -/
def strStub : PyValue → String
  | PyValue.str s => s
  | _ => "object"

/-- Concrete stand-in for the abstract `json.dumps` parameter, used only to
instantiate closed witnesses. -/
def dumpsStub : PyValue → String :=
  fun _ => "serialized"

/-! ## `mcp_server_jira.py`: `get_jira_client` and `create_ticket`

A raised Python exception is `Except.error` carrying the exception message;
in particular `Except.error` out of `create_ticket_main` models a raised
`JiraToolError` escaping the tool function. -/

/-- Outcome of the backend `jira.create_issue` call: success with the new
issue's key and permalink, a raised `JIRAError` with its `text` (the empty
string models a falsy/absent `e.text`) and `status_code`, or any other
raised exception with its `str(e)`. -/
inductive CreateOutcome where
  | ok (key url : String)
  | jiraErr (text : String) (status : Nat)
  | exc (msg : String)

/-- The environment of `mcp_server_jira.py`: whether
`all([jira_url, jira_user, jira_token])` holds, whether the `JIRA(...)`
constructor raises a `JIRAError` (with its `text`), and the behaviour of
`jira.create_issue` on the four ticket fields. -/
structure JiraEnv where
  credsOk : Bool
  connectErr : Option String
  createIssue : String → String → String → String → CreateOutcome

/-- Translation of `get_jira_client`: raises `JiraToolError` when the
credentials are not configured or when connecting raises a `JIRAError`. -/
def get_jira_client (env : JiraEnv) : Except String Unit :=
  if env.credsOk = false then
    Except.error "JIRA credentials not configured. Please set JIRA_URL, JIRA_USER, and JIRA_TOKEN in your .env file."
  else
    match env.connectErr with
    | some t => Except.error ("Failed to connect to JIRA: " ++ t)
    | none => Except.ok ()

/-- Translation of `create_ticket` from `mcp_server_jira.py`. A
`JiraToolError` raised by `get_jira_client` is not a `JIRAError`, so it is
caught by the generic `except Exception` handler and re-raised wrapped; a
`JIRAError` from `create_issue` is re-raised as a `JiraToolError` whose
message embeds `e.text` (with the extra hint when the text mentions an
invalid issue type) or `e.status_code` when the text is falsy. On success
the returned payload is `{"key": ..., "url": ...}`. -/
def create_ticket_main (env : JiraEnv) (project_key summary description : String)
    (issue_type : String := "Story") : Except String PyValue :=
  match get_jira_client env with
  | Except.error m =>
    Except.error ("An unexpected error occurred during ticket creation: " ++ m)
  | Except.ok () =>
    match env.createIssue project_key summary description issue_type with
    | CreateOutcome.ok key url =>
      Except.ok (PyValue.dict [("key", PyValue.str key), ("url", PyValue.str url)])
    | CreateOutcome.jiraErr text status =>
      if text == "" then
        Except.error ("JIRA API Error: " ++ toString status ++ " - No detailed message provided.")
      else
        Except.error ("JIRA API Error: " ++ text ++
          (if pyIsSubstr "The issue type selected is not valid" text then
            ". This could be because the issue type is not available in the specified project."
          else ""))
    | CreateOutcome.exc m =>
      Except.error ("An unexpected error occurred during ticket creation: " ++ m)

/-! ## `test_jira_mcp_server_addl_funct.py`: `create_ticket` -/

/-- The environment of the additional-functions server: whether the global
`jira_client` connected, and `jira_client.create_issue`, whose failure is a
raised `JIRAError` with its `text` and whose success yields the new issue's
key and `self` link. -/
structure JiraEnvT where
  connected : Bool
  createIssue : String → String → String → String → Except String (String × String)

/-- Translation of `create_ticket` from `test_jira_mcp_server_addl_funct.py`:
never raises; returns `{"error": ...}` when the client is not connected or a
`JIRAError` is caught, and `{"success": True, "key": ..., "link": ...}` on
success. The default issue type is `'Task'`. -/
def create_ticket_addl (env : JiraEnvT) (project_key summary description : String)
    (issue_type : String := "Task") : PyValue :=
  if env.connected = false then
    PyValue.dict [("error", PyValue.str "JIRA client is not connected.")]
  else
    match env.createIssue project_key summary description issue_type with
    | Except.ok (key, link) =>
      PyValue.dict [("success", PyValue.bool true), ("key", PyValue.str key),
        ("link", PyValue.str link)]
    | Except.error etext =>
      PyValue.dict [("error", PyValue.str ("Failed to create ticket: " ++ etext))]

/-! ## `mcp_server_confluence.py`: `get_jira_project_status` and
`create_confluence_report` -/

/-- Python `v.get(k)` (an `AttributeError` is raised when `v` is not a
dict). -/
def pyGetMeth (v : PyValue) (k : String) : Except String PyValue :=
  match v with
  | PyValue.dict l => Except.ok (pyGetD l k PyValue.pynone)
  | _ => Except.error ("AttributeError: object has no attribute get (" ++ k ++ ")")

/-- Python `v[k]` for a string key: a `KeyError` on a dict missing the key, a
`TypeError` on non-dicts. -/
def pySubscr (v : PyValue) (k : String) : Except String PyValue :=
  match v with
  | PyValue.dict l =>
    match pyLookup l k with
    | some w => Except.ok w
    | none => Except.error ("KeyError: " ++ k)
  | _ => Except.error "TypeError: value is not subscriptable"

/-- Python `for x in v`: lists iterate their elements, dicts their keys,
strings their characters; other values raise a `TypeError`. -/
def asIterable (v : PyValue) : Except String (List PyValue) :=
  match v with
  | PyValue.list l => Except.ok l
  | PyValue.dict l => Except.ok (l.map (fun p => PyValue.str p.1))
  | PyValue.str s => Except.ok (s.data.map (fun c => PyValue.str (String.mk [c])))
  | _ => Except.error "TypeError: object is not iterable"

/-- Python `needle in v` for a string needle: key membership on dicts,
element membership on lists, substring containment on strings, a `TypeError`
otherwise. -/
def pyInStrE (needle : String) (v : PyValue) : Except String Bool :=
  match v with
  | PyValue.dict l => Except.ok (pyLookup l needle).isSome
  | PyValue.list l =>
    Except.ok (l.any (fun x =>
      match x with
      | PyValue.str t => t == needle
      | _ => false))
  | PyValue.str s => Except.ok (isSubstrL needle.data s.data)
  | _ => Except.error "TypeError: argument is not iterable"

/-- The environment of `mcp_server_confluence.py`. The two backend clients
are abstracted: `jql` covers the `Jira(...)` constructor together with
`jira.jql(query, limit=50)` (both live inside the same `try`), `createPage`
covers the `Confluence(...)` constructor together with
`confluence.create_page(space, title, body, ...)`; in both, `Except.error`
is a raised exception with its `str(e)`. `strOf` abstracts the `str` builtin
as used by the f-strings; `jiraServer` and `confluenceUrl` are the rendered
`JIRA_SERVER` / `CONFLUENCE_URL` values. -/
structure ConflEnv where
  jiraServer : String
  confluenceUrl : String
  strOf : PyValue → String
  jql : String → Except String PyValue
  createPage : String → String → String → Except String PyValue

/-- One `status_report.append({...})` entry built from an issue dict,
including the `if issue['fields']['assignee'] else 'Unassigned'`
conditional; any failing subscript propagates as an exception. -/
def reportEntry (issue : PyValue) : Except String PyValue := do
  let k ← pySubscr issue "key"
  let fields ← pySubscr issue "fields"
  let summaryV ← pySubscr fields "summary"
  let statusV ← pySubscr fields "status"
  let statusName ← pySubscr statusV "name"
  let assigneeV ← pySubscr fields "assignee"
  let assignee ←
    if pyTruthy assigneeV then pySubscr assigneeV "displayName"
    else pure (PyValue.str "Unassigned")
  pure (PyValue.dict
    [("key", k), ("summary", summaryV), ("status", statusName), ("assignee", assignee)])

/-- The body of the `try` in `get_jira_project_status`. -/
def gjpsTry (env : ConflEnv) (project_key : String) : Except String PyValue := do
  let issues ← env.jql ("project = \"" ++ project_key ++ "\" ORDER BY created DESC")
  let got ← pyGetMeth issues "issues"
  if pyTruthy got = false then
    pure (PyValue.dict
      [("error", PyValue.str ("No issues found for project \x27" ++ project_key ++ "\x27."))])
  else do
    let items ← asIterable got
    let entries ← items.mapM reportEntry
    pure (PyValue.list entries)

/-- Translation of `get_jira_project_status`: the `try` body, with any raised
exception caught and converted to
`{"error": f"Failed to get JIRA status: {str(e)}"}`. -/
def get_jira_project_status (env : ConflEnv) (project_key : String) : PyValue :=
  match gjpsTry env project_key with
  | Except.ok v => v
  | Except.error e =>
    PyValue.dict [("error", PyValue.str ("Failed to get JIRA status: " ++ e))]

/-- One `<tr>...</tr>` row of the report table. -/
def htmlRow (env : ConflEnv) (item : PyValue) : Except String String := do
  let k ← pySubscr item "key"
  let s ← pySubscr item "summary"
  let st ← pySubscr item "status"
  let a ← pySubscr item "assignee"
  pure ("<tr><td><a href=\x27" ++ env.jiraServer ++ "/browse/" ++ env.strOf k ++ "\x27>"
    ++ env.strOf k ++ "</a></td><td>" ++ env.strOf s ++ "</td><td>" ++ env.strOf st
    ++ "</td><td>" ++ env.strOf a ++ "</td></tr>")

/-- The HTML body assembled by `create_confluence_report` (step 2). -/
def buildHtml (env : ConflEnv) (jira_project_key : String) (jira_report : PyValue) :
    Except String String := do
  let items ← asIterable jira_report
  let rows ← items.mapM (htmlRow env)
  pure ("<h2>JIRA Project Status Report: " ++ jira_project_key ++ "</h2>"
    ++ "<table border=\x271\x27 cellpadding=\x275\x27 cellspacing=\x270\x27 style=\x27width: 100%; border-collapse: collapse;\x27>"
    ++ "<thead><tr><th>Issue Key</th><th>Summary</th><th>Status</th><th>Assignee</th></tr></thead>"
    ++ "<tbody>" ++ String.join rows ++ "</tbody></table>")

/-- The `{"error": f"An unexpected error occurred: {str(e)}"}` payload of the
outer `except` in `create_confluence_report`. -/
def ccrExc (e : String) : PyValue :=
  PyValue.dict [("error", PyValue.str ("An unexpected error occurred: " ++ e))]

/-- Translation of `create_confluence_report`. The second component counts
the page-creation network calls (`confluence.create_page`) performed. The
sub-fetch result is tested with `if "error" in jira_report:` and returned
unchanged when it hits; every raised exception is caught by the outer
`except` into `ccrExc`. -/
def create_confluence_report (env : ConflEnv)
    (page_title confluence_space_key jira_project_key : String) : PyValue × Nat :=
  let jira_report := get_jira_project_status env jira_project_key
  match pyInStrE "error" jira_report with
  | Except.error e => (ccrExc e, 0)
  | Except.ok true => (jira_report, 0)
  | Except.ok false =>
    match buildHtml env jira_project_key jira_report with
    | Except.error e => (ccrExc e, 0)
    | Except.ok html =>
      match env.createPage confluence_space_key page_title html with
      | Except.error e => (ccrExc e, 1)
      | Except.ok create_result =>
        match (if pyTruthy create_result = false then Except.ok false
               else pyInStrE "id" create_result) with
        | Except.error e => (ccrExc e, 1)
        | Except.ok false =>
          (PyValue.dict [("error", PyValue.str "Failed to create Confluence page. Check permissions and space key.")], 1)
        | Except.ok true =>
          match pySubscr create_result "id" with
          | Except.error e => (ccrExc e, 1)
          | Except.ok idv =>
            (PyValue.dict
              [("page_title", PyValue.str page_title),
               ("page_url", PyValue.str (env.confluenceUrl ++ "/spaces/"
                  ++ confluence_space_key ++ "/pages/" ++ env.strOf idv)),
               ("message", PyValue.str "Confluence page created successfully.")], 1)

/-! ## List-level lemmas about the string primitives -/

theorem strData_append (a b : String) : (a ++ b).data = a.data ++ b.data := by
  cases a; cases b; rfl

theorem dropWhile_app (p : Char → Bool) (u v : List Char) :
    List.dropWhile p (u ++ v) =
      if (List.dropWhile p u).isEmpty then List.dropWhile p v
      else List.dropWhile p u ++ v := by
  induction u with
  | nil => simp
  | cons a u ih =>
    by_cases h : p a = true
    · simpa [List.dropWhile_cons, h] using ih
    · simp [List.dropWhile_cons, h]

theorem dropWhile_all_false (p : Char → Bool) (l : List Char)
    (h : ∀ c ∈ l, p c = false) : List.dropWhile p l = l := by
  induction l with
  | nil => rfl
  | cons a l ih =>
    have ha := h a (by simp)
    simp [List.dropWhile_cons, ha]

theorem dropWhile_idem (p : Char → Bool) (l : List Char) :
    List.dropWhile p (List.dropWhile p l) = List.dropWhile p l := by
  induction l with
  | nil => rfl
  | cons a l ih =>
    by_cases h : p a = true
    · simpa [List.dropWhile_cons, h] using ih
    · simp [List.dropWhile_cons, h]

theorem rstrip_concat_true {p : Char → Bool} {x : Char} (h : p x = true)
    (l : List Char) : rstripP p (l ++ [x]) = rstripP p l := by
  simp [rstripP, List.dropWhile_cons, h]

theorem rstrip_concat_false {p : Char → Bool} {x : Char} (h : p x = false)
    (l : List Char) : rstripP p (l ++ [x]) = l ++ [x] := by
  simp [rstripP, List.dropWhile_cons, h]

theorem rstrip_append_lastfalse {p : Char → Bool} {x : Char} (h : p x = false)
    (u v : List Char) : rstripP p ((u ++ [x]) ++ v) = (u ++ [x]) ++ rstripP p v := by
  unfold rstripP
  rw [List.reverse_append, dropWhile_app]
  by_cases hv : (List.dropWhile p v.reverse).isEmpty
  · simp only [hv, if_true]
    simp only [List.isEmpty_iff] at hv
    rw [hv]
    simp [List.reverse_append, List.dropWhile_cons, h]
  · simp only [hv, if_false]
    simp [List.reverse_append, List.dropWhile_cons, h]

theorem rstrip_all_false {p : Char → Bool} {l : List Char}
    (h : ∀ c ∈ l, p c = false) : rstripP p l = l := by
  unfold rstripP
  rw [dropWhile_all_false p l.reverse (by simpa using h)]
  exact l.reverse_reverse

theorem rstrip_idem (p : Char → Bool) (l : List Char) :
    rstripP p (rstripP p l) = rstripP p l := by
  unfold rstripP
  rw [List.reverse_reverse, dropWhile_idem]

theorem lstrip_cons_false {p : Char → Bool} {a : Char} (h : p a = false)
    (l : List Char) : lstripP p (a :: l) = a :: l := by
  simp [lstripP, List.dropWhile_cons, h]

theorem strip_all_false {p : Char → Bool} {l : List Char}
    (h : ∀ c ∈ l, p c = false) : stripP p l = l := by
  unfold stripP lstripP
  rw [rstrip_all_false h, dropWhile_all_false p l h]

theorem strip_rstrip (p : Char → Bool) (l : List Char) :
    stripP p (rstripP p l) = stripP p l := by
  unfold stripP
  rw [rstrip_idem]

theorem splitC_ne_nil (c : Char) (l : List Char) : splitC c l ≠ [] := by
  induction l with
  | nil => simp [splitC]
  | cons a l ih =>
    unfold splitC
    match hs : splitC c l with
    | [] => exact absurd hs ih
    | y :: ys =>
      by_cases h : a == c <;> simp [h]

theorem containsC_cons_false {c a : Char} {u : List Char}
    (h : containsC c (a :: u) = false) :
    (a == c) = false ∧ containsC c u = false := by
  simp only [containsC, List.any_cons] at h
  exact Bool.or_eq_false_iff.mp h

theorem splitC_nosep {c : Char} {u : List Char} (h : containsC c u = false) :
    splitC c u = [u] := by
  induction u with
  | nil => rfl
  | cons a u ih =>
    obtain ⟨hac, hu⟩ := containsC_cons_false h
    conv_lhs => rw [splitC]
    rw [ih hu]
    simp [hac]

theorem splitC_sep {c : Char} {u : List Char} (h : containsC c u = false)
    (v : List Char) : splitC c (u ++ c :: v) = u :: splitC c v := by
  induction u with
  | nil =>
    rw [List.nil_append]
    match hs : splitC c v with
    | [] => exact absurd hs (splitC_ne_nil c v)
    | y :: ys =>
      conv_lhs => rw [splitC]
      rw [hs]
      simp
  | cons a u ih =>
    obtain ⟨hac, hu⟩ := containsC_cons_false h
    have ihu := ih hu
    rw [List.cons_append]
    conv_lhs => rw [splitC]
    rw [ihu]
    simp [hac]

theorem splitOnce_sep {c : Char} {u : List Char} (h : containsC c u = false)
    (v : List Char) : splitOnceC c (u ++ c :: v) = some (u, v) := by
  induction u with
  | nil => simp [splitOnceC]
  | cons a u ih =>
    obtain ⟨hac, hu⟩ := containsC_cons_false h
    simp [splitOnceC, hac, ih hu]

theorem startsWith_app (u v : List Char) : startsWithL u (u ++ v) = true := by
  induction u with
  | nil => rfl
  | cons a u ih => simpa [startsWithL] using ih

theorem find_first {α : Type} (p : α → Bool) (l1 l2 : List α) (t : α)
    (h1 : ∀ x ∈ l1, p x = false) (h2 : p t = true) :
    List.find? p (l1 ++ t :: l2) = some t := by
  induction l1 with
  | nil => simp [List.find?, h2]
  | cons a l1 ih =>
    have ha := h1 a (by simp)
    rw [List.cons_append, List.find?]
    rw [ha]
    exact ih (fun x hx => h1 x (by simp [hx]))

theorem foldl_skip {α β : Type} (f : β → α → β) (p : α → Bool) :
    ∀ (l : List α) (b : β), (∀ a ∈ l, p a = false) →
      l.foldl (fun acc a => if p a then f acc a else acc) b = b := by
  intro l
  induction l with
  | nil => intro b _; rfl
  | cons a l ih =>
    intro b h
    have ha := h a (by simp)
    simp only [List.foldl_cons, ha, if_false, Bool.false_eq_true]
    exact ih b (fun x hx => h x (by simp [hx]))

theorem foldl_filter {α β : Type} (f : β → α → β) (p : α → Bool) :
    ∀ (l : List α) (b : β),
      (l.filter p).foldl f b = l.foldl (fun acc a => if p a then f acc a else acc) b := by
  intro l
  induction l with
  | nil => intro b; rfl
  | cons a l ih =>
    intro b
    by_cases h : p a = true <;> simp [List.filter_cons, h, ih]

theorem strMk_data (s : String) : String.mk s.data = s := rfl

theorem data_mk (l : List Char) : (String.mk l).data = l := rfl

theorem data_lparen : ("(" : String).data = ['('] := rfl

theorem data_rparen : (")" : String).data = [')'] := rfl

theorem data_eqch : ("=" : String).data = ['='] := rfl

theorem data_commaspace : (", " : String).data = [',', ' '] := rfl

theorem data_parens : ("()" : String).data = ['(', ')'] := rfl

theorem containsC_eq_false {c : Char} {l : List Char} (h : ∀ x ∈ l, ¬x = c) :
    containsC c l = false := by
  simp only [containsC, List.any_eq_false]
  intro x hx
  simpa using h x hx

theorem containsC_mem {c : Char} {l : List Char} (h : c ∈ l) :
    containsC c l = true := by
  simp only [containsC, List.any_eq_true]
  exact ⟨c, h, by simp⟩

theorem rstrip_cons_of_all {p : Char → Bool} {a : Char} {l : List Char}
    (hl : l ≠ []) (h : ∀ c ∈ l, p c = false) : rstripP p (a :: l) = a :: l := by
  unfold rstripP
  rw [List.reverse_cons, dropWhile_app]
  rw [dropWhile_all_false p l.reverse (by simpa using h)]
  have : l.reverse.isEmpty = false := by
    simpa [List.isEmpty_iff] using hl
  rw [this]
  simp

theorem lstrip_app_head_false {p : Char → Bool} {K : List Char} {x : Char}
    (hK : ∀ c ∈ K, p c = false) (hx : p x = false) (V : List Char) :
    lstripP p ((K ++ [x]) ++ V) = (K ++ [x]) ++ V := by
  cases K with
  | nil => simpa using lstrip_cons_false hx V
  | cons a K' =>
    have ha : p a = false := hK a (by simp)
    simpa using lstrip_cons_false ha ((K' ++ [x]) ++ V)

theorem strip_eq_self_wrap {p : Char → Bool} {N rest : List Char} {z : Char}
    (hN : ∀ c ∈ N, p c = false) (hop : p '(' = false) (hz : p z = false) :
    stripP p (N ++ '(' :: (rest ++ [z])) = N ++ '(' :: (rest ++ [z]) := by
  have hshape : N ++ '(' :: (rest ++ [z]) = ((N ++ ['(']) ++ rest) ++ [z] := by simp
  unfold stripP
  rw [hshape, rstrip_concat_false hz]
  have hshape2 : ((N ++ ['(']) ++ rest) ++ [z] = (N ++ ['(']) ++ (rest ++ [z]) := by simp
  rw [hshape2, lstrip_app_head_false hN hop]

theorem strip_seg {K V : List Char} (hK : ∀ c ∈ K, pyIsSpace c = false) :
    stripP pyIsSpace (K ++ '=' :: V) = K ++ '=' :: rstripP pyIsSpace V := by
  have h1 : K ++ '=' :: V = (K ++ ['=']) ++ V := by simp
  rw [h1]
  unfold stripP
  rw [rstrip_append_lastfalse (show pyIsSpace '=' = false from rfl)]
  rw [lstrip_app_head_false hK (show pyIsSpace '=' = false from rfl)]
  simp

theorem argStep_seg (litEval : String → Option PyValue)
    (acc : List (String × PyValue)) (K V : List Char)
    (hkE : ∀ c ∈ K, ¬c = '=') :
    argStep litEval acc (K ++ '=' :: V)
      = pyDictInsert acc (String.mk (stripP pyIsSpace K))
          (match litEval (String.mk (stripP pyIsSpace V)) with
           | some lit => lit
           | none => PyValue.str (String.mk (stripCharsL quoteChars (stripP pyIsSpace V)))) := by
  unfold argStep
  rw [if_pos (by simpa using containsC_mem (show '=' ∈ K ++ '=' :: V by simp))]
  rw [splitOnce_sep (containsC_eq_false hkE) V]

theorem argStep_skip (litEval : String → Option PyValue)
    (acc : List (String × PyValue)) (arg : List Char)
    (h : containsC '=' arg = false) : argStep litEval acc arg = acc := by
  simp [argStep, h]

theorem pyDictInsert_nil (k : String) (x : PyValue) :
    pyDictInsert [] k x = [(k, x)] := by
  simp [pyDictInsert]

theorem pyDictInsert_single_ne {k1 k2 : String} (h : k1 ≠ k2)
    (x1 x2 : PyValue) :
    pyDictInsert [(k1, x1)] k2 x2 = [(k1, x1), (k2, x2)] := by
  have hb : (k1 == k2) = false := beq_eq_false_iff_ne.mpr h
  simp [pyDictInsert, hb]

theorem llmToolCalls_effects
    (callTool : String → List (String × PyValue) → Except String PyValue) :
    ∀ (cs : List (String × List (String × PyValue)))
      (acc : List (String × List (String × PyValue)))
      (r : Option McpResult) (t : Option String),
      (List.foldl
        (fun acc c => (acc.1 ++ [c], some (wrapCall callTool c.1 c.2), some c.1))
        (acc, r, t) cs).1 = acc ++ cs := by
  intro cs
  induction cs with
  | nil => intro acc r t; simp
  | cons x cs ih =>
    intro acc r t
    simp only [List.foldl_cons]
    rw [ih]
    simp

/-! ## Claim C4: schema normalization -/

/-- C4: schema normalization checks `parameters` first, falls back to
`inputSchema`, treats anything that is not a mapping as an empty schema, and
always returns the canonical `{properties, required}` shape with `properties`
defaulting to an empty mapping and `required` to an empty sequence; the
output is identical regardless of which recognized field carries the
schema. -/
theorem claim_c4_schema_adapter :
    (∀ t : ToolDesc,
      ((t.parameters = none ∧ t.inputSchema = none) ∨ (∀ l, rawSchema t ≠ PyValue.dict l)) →
      llmToolEntry t = PyValue.dict
        [("type", PyValue.str "function"),
         ("function", PyValue.dict
           [("name", PyValue.str t.name),
            ("description", PyValue.str t.description),
            ("parameters", PyValue.dict
              [("type", PyValue.str "object"),
               ("properties", PyValue.dict []),
               ("required", PyValue.list [])])])])
    ∧ (∀ (name desc : String) (s : PyValue) (x : Option PyValue),
        s ≠ PyValue.pynone →
        llmToolEntry ⟨name, desc, some s, x⟩ = llmToolEntry ⟨name, desc, none, some s⟩)
    ∧ (∀ t : ToolDesc, ∃ p r, llmToolEntry t = PyValue.dict
        [("type", PyValue.str "function"),
         ("function", PyValue.dict
           [("name", PyValue.str t.name),
            ("description", PyValue.str t.description),
            ("parameters", PyValue.dict
              [("type", PyValue.str "object"),
               ("properties", p),
               ("required", r)])])]) := by
  refine ⟨?_, ?_, ?_⟩
  · intro t h
    have hc : coercedSchema t = [] := by
      rcases h with ⟨hp, hi⟩ | hnd
      · simp [coercedSchema, rawSchema, hp, hi]
      · unfold coercedSchema
        match hr : rawSchema t with
        | PyValue.dict l => exact absurd hr (hnd l)
        | PyValue.str _ | PyValue.int _ | PyValue.bool _ | PyValue.pynone
        | PyValue.list _ => rfl
    simp [llmToolEntry, hc, pyGetD, pyLookup]
  · intro name desc s x hs
    have hraw : rawSchema ⟨name, desc, some s, x⟩ = rawSchema ⟨name, desc, none, some s⟩ := by
      cases s <;> simp_all [rawSchema]
    simp [llmToolEntry, coercedSchema, hraw]
  · intro t
    exact ⟨_, _, rfl⟩

/-- Witness for C4: a descriptor with a non-mapping schema normalizes to the
empty canonical shape, and a mapping schema yields the same entry whether it
is carried by `parameters` or by `inputSchema`. -/
theorem claim_c4_witness :
    llmToolEntry ⟨"t1", "d1", none, some (PyValue.str "oops")⟩ = PyValue.dict
      [("type", PyValue.str "function"),
       ("function", PyValue.dict
         [("name", PyValue.str "t1"),
          ("description", PyValue.str "d1"),
          ("parameters", PyValue.dict
            [("type", PyValue.str "object"),
             ("properties", PyValue.dict []),
             ("required", PyValue.list [])])])]
    ∧ llmToolEntry ⟨"t2", "d2",
        some (PyValue.dict [("properties", PyValue.dict [("issue_key", PyValue.dict [("type", PyValue.str "string")])]), ("required", PyValue.list [PyValue.str "issue_key"])]),
        none⟩
      = llmToolEntry ⟨"t2", "d2", none,
        some (PyValue.dict [("properties", PyValue.dict [("issue_key", PyValue.dict [("type", PyValue.str "string")])]), ("required", PyValue.list [PyValue.str "issue_key"])])⟩ :=
  ⟨claim_c4_schema_adapter.1 _ (Or.inr (by intro l h; simp [rawSchema] at h)),
   claim_c4_schema_adapter.2.1 "t2" "d2" _ none (by simp)⟩

/-! ## Claim C5: report-page error short-circuit -/

/-- C5: whenever the underlying JIRA status fetch of
`create_confluence_report` returns an error payload, the operation returns
exactly that payload unmodified and performs zero page-creation network
calls. -/
theorem claim_c5_report_short_circuit (env : ConflEnv)
    (title space key : String) (l : List (String × PyValue))
    (hfetch : get_jira_project_status env key = PyValue.dict l)
    (herr : (pyLookup l "error").isSome = true) :
    create_confluence_report env title space key
      = (get_jira_project_status env key, 0) := by
  unfold create_confluence_report
  rw [hfetch]
  simp [pyInStrE, herr]

/-- Witness for C5: a project with no issues makes the status fetch return
`{"error": "No issues found..."}` and the report operation returns it
unchanged with no page-creation call. -/
theorem claim_c5_witness :
    create_confluence_report
        ⟨"J", "C", strStub, fun _ => Except.ok (PyValue.dict [("issues", PyValue.list [])]),
         fun _ _ _ => Except.ok PyValue.pynone⟩
        "Report" "SP" "NOPE"
      = (get_jira_project_status
          ⟨"J", "C", strStub, fun _ => Except.ok (PyValue.dict [("issues", PyValue.list [])]),
           fun _ _ _ => Except.ok PyValue.pynone⟩ "NOPE", 0) :=
  claim_c5_report_short_circuit _ "Report" "SP" "NOPE"
    [("error", PyValue.str "No issues found for project \x27NOPE\x27.")] rfl rfl

/-! ## Claim C7: last tool call wins -/

/-- C7: when the LLM response requests several tool calls, the loop invokes
every requested call sequentially, in order, and the captured result and
tool name are exactly those of the last requested call. -/
theorem claim_c7_last_call_wins
    (callTool : String → List (String × PyValue) → Except String PyValue)
    (cs : List (String × List (String × PyValue)))
    (c : String × List (String × PyValue)) :
    llmToolCalls callTool (cs ++ [c])
      = (cs ++ [c], some (wrapCall callTool c.1 c.2), some c.1) := by
  unfold llmToolCalls
  rw [List.foldl_append]
  simp only [List.foldl_cons, List.foldl_nil]
  rw [llmToolCalls_effects]
  simp

/-! ## Claim C8: composition-call fallback -/

/-- C8: the final composition LLM call returns the LLM text on success, and
on failure returns the literal fallback string embedding the failure reason;
`finalReply` is a total function, so this path never raises. -/
theorem claim_c8_compose_fallback (llm : String → Except String String)
    (p : String) :
    (∀ t, llm p = Except.ok t → finalReply llm p = t) ∧
    (∀ e, llm p = Except.error e →
      finalReply llm p = "I encountered an error generating a response: " ++ e) := by
  constructor <;> intro x hx <;> simp [finalReply, hx]

/-- Witness for C8: a failing composition call yields the fallback string. -/
theorem claim_c8_witness :
    finalReply (fun _ => Except.error "quota exhausted") "prompt"
      = "I encountered an error generating a response: " ++ "quota exhausted" :=
  (claim_c8_compose_fallback (fun _ => Except.error "quota exhausted") "prompt").2
    "quota exhausted" rfl

/-! ## Claim C1: tool operations and exceptions -/

/-- Counterexample for C1 as stated: in `mcp_server_jira.py`, a `JIRAError`
raised by the backend during `create_ticket` is re-raised as a
`JiraToolError` (modelled by `Except.error`), so the exception propagates
past the tool-function boundary instead of being converted into a returned
`{"error": message}` payload. -/
theorem claim_c1_counterexample :
    create_ticket_main ⟨true, none, fun _ _ _ _ => CreateOutcome.jiraErr "boom" 400⟩
        "TEST" "Bug X" "desc"
      = Except.error "JIRA API Error: boom"
    ∧ ∀ v : PyValue,
        create_ticket_main ⟨true, none, fun _ _ _ _ => CreateOutcome.jiraErr "boom" 400⟩
          "TEST" "Bug X" "desc" ≠ Except.ok v := by
  constructor
  · rfl
  · intro v h
    rw [show create_ticket_main ⟨true, none, fun _ _ _ _ => CreateOutcome.jiraErr "boom" 400⟩
          "TEST" "Bug X" "desc" = Except.error "JIRA API Error: boom" from rfl] at h
    exact Except.noConfusion h

/-- C1 amended: the `create_ticket` of the additional-functions server never
raises — every run returns either a payload whose only key is `error` or the
success payload — while the `create_ticket` of `mcp_server_jira.py` either
returns the `{key, url}` success payload or raises a `JiraToolError`
(`Except.error`); its backend failures are not converted into a returned
error payload. -/
theorem claim_c1_tool_error_boundary :
    (∀ (env : JiraEnvT) (p s d t : String),
      (∃ m, create_ticket_addl env p s d t = PyValue.dict [("error", PyValue.str m)]) ∨
      (∃ k l, create_ticket_addl env p s d t = PyValue.dict
        [("success", PyValue.bool true), ("key", PyValue.str k), ("link", PyValue.str l)])) ∧
    (∀ (env : JiraEnv) (p s d t : String),
      (∃ m, create_ticket_main env p s d t = Except.error m) ∨
      (∃ k u, create_ticket_main env p s d t = Except.ok
        (PyValue.dict [("key", PyValue.str k), ("url", PyValue.str u)]))) := by
  constructor
  · intro env p s d t
    by_cases hc : env.connected = false
    · refine Or.inl ⟨"JIRA client is not connected.", ?_⟩
      simp [create_ticket_addl, hc]
    · cases hE : env.createIssue p s d t with
      | ok kl =>
        obtain ⟨k, l⟩ := kl
        refine Or.inr ⟨k, l, ?_⟩
        simp [create_ticket_addl, hc, hE]
      | error m =>
        refine Or.inl ⟨"Failed to create ticket: " ++ m, ?_⟩
        simp [create_ticket_addl, hc, hE]
  · intro env p s d t
    cases hG : get_jira_client env with
    | error m =>
      refine Or.inl ⟨"An unexpected error occurred during ticket creation: " ++ m, ?_⟩
      simp [create_ticket_main, hG]
    | ok u0 =>
      cases u0
      cases hE : env.createIssue p s d t with
      | ok k u =>
        refine Or.inr ⟨k, u, ?_⟩
        simp [create_ticket_main, hG, hE]
      | jiraErr text st =>
        refine Or.inl ?_
        by_cases ht : (text == "") = true
        · refine ⟨"JIRA API Error: " ++ toString st ++ " - No detailed message provided.", ?_⟩
          simp [create_ticket_main, hG, hE, ht]
        · have ht' : (text == "") = false := by simpa using ht
          refine ⟨"JIRA API Error: " ++ text ++
            (if pyIsSubstr "The issue type selected is not valid" text then
              ". This could be because the issue type is not available in the specified project."
            else ""), ?_⟩
          simp [create_ticket_main, hG, hE, ht']
      | exc m =>
        refine Or.inl ⟨"An unexpected error occurred during ticket creation: " ++ m, ?_⟩
        simp [create_ticket_main, hG, hE]

/-! ## Claim C9: `createTicket` contract -/

/-- Counterexample for C9 as stated: in the additional-functions server, a
successful `create_ticket` with the issue type omitted creates the ticket
with issue type `'Task'` (not `'Story'`), and the success payload carries
`success`/`key`/`link` but no `url` key. The backend stub returns the issue
type it was called with, so the payload exhibits the default that was
passed. -/
theorem claim_c9_counterexample :
    create_ticket_addl ⟨true, fun _ _ _ t => Except.ok (t, t)⟩ "TEST" "Bug X" "desc"
      = PyValue.dict [("success", PyValue.bool true), ("key", PyValue.str "Task"),
          ("link", PyValue.str "Task")]
    ∧ pyLookup [("success", PyValue.bool true), ("key", PyValue.str "Task"),
        ("link", PyValue.str "Task")] "url" = none := ⟨rfl, rfl⟩

/-- C9 amended: in `mcp_server_jira.py`, a successful `create_ticket` returns
a payload containing both `key` and `url` and an omitted issue type defaults
to `'Story'`, while a backend `JIRAError` makes it raise a `JiraToolError`
rather than return an error payload; in the additional-functions server a
backend failure returns a payload whose only key is `error` (there, success
is `{success, key, link}` and the default issue type is `'Task'`). -/
theorem claim_c9_create_ticket :
    (∀ (env : JiraEnv) (p s d k u : String),
      env.credsOk = true → env.connectErr = none →
      env.createIssue p s d "Story" = CreateOutcome.ok k u →
      create_ticket_main env p s d
        = Except.ok (PyValue.dict [("key", PyValue.str k), ("url", PyValue.str u)])) ∧
    (∀ (env : JiraEnv) (p s d text : String) (st : Nat),
      env.credsOk = true → env.connectErr = none →
      env.createIssue p s d "Story" = CreateOutcome.jiraErr text st →
      ∃ m, create_ticket_main env p s d = Except.error m) ∧
    (∀ (env : JiraEnvT) (p s d etext : String),
      env.connected = true →
      env.createIssue p s d "Task" = Except.error etext →
      create_ticket_addl env p s d
        = PyValue.dict [("error", PyValue.str ("Failed to create ticket: " ++ etext))]) := by
  refine ⟨?_, ?_, ?_⟩
  · intro env p s d k u h1 h2 h3
    simp [create_ticket_main, get_jira_client, h1, h2, h3]
  · intro env p s d text st h1 h2 h3
    by_cases ht : (text == "") = true
    · refine ⟨"JIRA API Error: " ++ toString st ++ " - No detailed message provided.", ?_⟩
      simp [create_ticket_main, get_jira_client, h1, h2, h3, ht]
    · have ht' : (text == "") = false := by simpa using ht
      refine ⟨"JIRA API Error: " ++ text ++
        (if pyIsSubstr "The issue type selected is not valid" text then
          ". This could be because the issue type is not available in the specified project."
        else ""), ?_⟩
      simp [create_ticket_main, get_jira_client, h1, h2, h3, ht']
  · intro env p s d etext h1 h2
    simp [create_ticket_addl, h1, h2]

/-- Witness for C9: a concrete success run of the main-server `create_ticket`
(showing the `'Story'` default flowing into the backend call), a concrete
backend failure raising, and a concrete additional-server failure returning
the error-only payload. -/
theorem claim_c9_witness :
    create_ticket_main ⟨true, none, fun _ _ _ t => CreateOutcome.ok "TEST-1" t⟩
        "TEST" "Bug X" "desc"
      = Except.ok (PyValue.dict [("key", PyValue.str "TEST-1"), ("url", PyValue.str "Story")])
    ∧ (∃ m, create_ticket_main ⟨true, none, fun _ _ _ _ => CreateOutcome.jiraErr "denied" 403⟩
        "TEST" "s" "d" = Except.error m)
    ∧ create_ticket_addl ⟨true, fun _ _ _ _ => Except.error "no permission"⟩ "TEST" "s" "d"
        = PyValue.dict [("error", PyValue.str ("Failed to create ticket: " ++ "no permission"))] :=
  ⟨claim_c9_create_ticket.1 _ "TEST" "Bug X" "desc" "TEST-1" "Story" rfl rfl rfl,
   claim_c9_create_ticket.2.1 _ "TEST" "s" "d" "denied" 403 rfl rfl rfl,
   claim_c9_create_ticket.2.2 _ "TEST" "s" "d" "no permission" rfl rfl⟩

/-! ## Claim C3: composer prompt selection -/

/-- Counterexample for C3 as stated: a dispatch result payload that is a
plain mapping containing an `error` key (exactly what the dispatcher builds
when a tool call raises) does not select the failure prompt: having no
`data` attribute, it is stringified by `str(...)`, the failure-branch test
is false, and the acknowledgment branch is taken. -/
theorem claim_c3_counterexample :
    (pyLookup [("error", PyValue.str "boom")] "error").isSome = true
    ∧ composerPicksFailure (normalizeResult strStub
        (McpResult.plain (PyValue.dict [("error", PyValue.str "boom")]))) = false
    ∧ composeStage strStub dumpsStub "q" (some "create_ticket")
        (McpResult.plain (PyValue.dict [("error", PyValue.str "boom")]))
      = composeRest dumpsStub "q" (some "create_ticket")
          (PyValue.str (strStub (PyValue.dict [("error", PyValue.str "boom")]))) :=
  ⟨rfl, rfl, rfl⟩

/-- C3 amended: the composer selects the failure prompt exactly when the
normalized payload is a mapping containing an `error` key, which happens
exactly when the dispatch result arrived wrapped in a tool-call result
(carrying a `data` attribute) whose data is such a mapping; plain mappings
are stringified and fall through to the remaining branches, which pick the
acknowledgment prompt when the tool name is truthy and the raw utterance
otherwise. -/
theorem claim_c3_composer_selection (strFn dumpsFn : PyValue → String)
    (q : String) (tn : Option String) :
    (∀ r : McpResult,
      composerPicksFailure (normalizeResult strFn r) = true ↔
        ∃ l, r = McpResult.callResult (PyValue.dict l) ∧ (pyLookup l "error").isSome = true) ∧
    (∀ (l : List (String × PyValue)) (ev : PyValue), pyLookup l "error" = some ev →
      composeStage strFn dumpsFn q tn (McpResult.callResult (PyValue.dict l))
        = failureText strFn q tn ev) ∧
    (∀ r : McpResult, composerPicksFailure (normalizeResult strFn r) = false →
      composeStage strFn dumpsFn q tn r = composeRest dumpsFn q tn (normalizeResult strFn r)) ∧
    (∀ v : PyValue, toolNameTruthy tn = true →
      composeRest dumpsFn q tn v
        = "User asked: " ++ q ++ "\n\nTool result from \x27" ++ fmtOptStr tn ++ "\x27:\n"
            ++ dumpsFn v ++ "\n\nAnswer concisely, acknowledging the tool use.") ∧
    (∀ v : PyValue, toolNameTruthy tn = false → composeRest dumpsFn q tn v = q) := by
  refine ⟨?_, ?_, ?_, ?_, ?_⟩
  · intro r
    cases r with
    | callResult d =>
      cases d <;> simp [normalizeResult, composerPicksFailure]
    | plain v =>
      cases v <;> simp [normalizeResult, composerPicksFailure]
  · intro l ev h
    simp [composeStage, normalizeResult, composePrompt, h]
  · intro r h
    unfold composeStage composePrompt
    match hn : normalizeResult strFn r with
    | PyValue.dict l =>
      rw [hn] at h
      simp only [composerPicksFailure] at h
      match hl : pyLookup l "error" with
      | some ev => rw [hl] at h; simp at h
      | none => simp [hl]
    | PyValue.str _ | PyValue.int _ | PyValue.bool _ | PyValue.pynone
    | PyValue.list _ => rfl
  · intro v h
    simp [composeRest, h]
  · intro v h
    simp [composeRest, h]

/-! ## Claim C2: literal-call detection and dispatch -/

/-- C2: for an utterance of the shape `<name>(k1=v1, k2=v2)` whose name
belongs to a registered tool, dispatch scans descriptors in registry order
testing whether the trimmed utterance starts with `<name>(`, takes the first
match (the descriptors before it do not match), extracts the argument
mapping `{k1: parsed(v1), k2: parsed(v2)}`, and invokes that tool exactly
once with that mapping. The token hypotheses rule out the separator and
quote characters inside names, keys and values. -/
theorem claim_c2_literal_dispatch
    (litEval : String → Option PyValue)
    (callTool : String → List (String × PyValue) → Except String PyValue)
    (reg1 reg2 : List ToolDesc) (t : ToolDesc) (k1 v1 k2 v2 : String)
    (hname : ∀ c ∈ t.name.data, ¬c = '(' ∧ pyIsSpace c = false)
    (hk1 : ∀ c ∈ k1.data, ¬c = ',' ∧ ¬c = '=' ∧ pyIsSpace c = false)
    (hv1 : ∀ c ∈ v1.data, ¬c = ',' ∧ pyIsSpace c = false)
    (hk2 : ∀ c ∈ k2.data, ¬c = ',' ∧ ¬c = '=' ∧ pyIsSpace c = false)
    (hv2 : ∀ c ∈ v2.data, ¬c = ',' ∧ ¬c = ')' ∧ pyIsSpace c = false)
    (hks : k1 ≠ k2)
    (hmiss : ∀ t' ∈ reg1,
      startsWithL (t'.name ++ "(").data
        (t.name ++ "(" ++ k1 ++ "=" ++ v1 ++ ", " ++ k2 ++ "=" ++ v2 ++ ")").data = false) :
    dispatchLiteral litEval callTool (reg1 ++ t :: reg2)
        (t.name ++ "(" ++ k1 ++ "=" ++ v1 ++ ", " ++ k2 ++ "=" ++ v2 ++ ")")
      = some ([(t.name, [(k1, parseLit litEval v1), (k2, parseLit litEval v2)])],
          wrapCall callTool t.name [(k1, parseLit litEval v1), (k2, parseLit litEval v2)],
          some t.name) := by
  have hnO : ∀ c ∈ t.name.data, ¬c = '(' := fun c hc => (hname c hc).1
  have hnW : ∀ c ∈ t.name.data, pyIsSpace c = false := fun c hc => (hname c hc).2
  have hk1W : ∀ c ∈ k1.data, pyIsSpace c = false := fun c hc => (hk1 c hc).2.2
  have hk1E : ∀ c ∈ k1.data, ¬c = '=' := fun c hc => (hk1 c hc).2.1
  have hv1W : ∀ c ∈ v1.data, pyIsSpace c = false := fun c hc => (hv1 c hc).2
  have hk2W : ∀ c ∈ k2.data, pyIsSpace c = false := fun c hc => (hk2 c hc).2.2
  have hk2E : ∀ c ∈ k2.data, ¬c = '=' := fun c hc => (hk2 c hc).2.1
  have hv2W : ∀ c ∈ v2.data, pyIsSpace c = false := fun c hc => (hv2 c hc).2.2
  set u : String := t.name ++ "(" ++ k1 ++ "=" ++ v1 ++ ", " ++ k2 ++ "=" ++ v2 ++ ")" with hu
  set B : List Char :=
    k1.data ++ '=' :: (v1.data ++ ',' :: ' ' :: (k2.data ++ '=' :: v2.data)) with hB
  have hudata : u.data = t.name.data ++ '(' :: (B ++ [')']) := by
    rw [hu, hB]
    simp [strData_append, data_lparen, data_rparen, data_eqch, data_commaspace]
  have hstripu : stripP pyIsSpace u.data = u.data := by
    rw [hudata]
    exact strip_eq_self_wrap hnW rfl rfl
  have hfind : findLitTool (reg1 ++ t :: reg2) u = some t := by
    unfold findLitTool
    apply find_first
    · intro x hx
      rw [hstripu]
      exact hmiss x hx
    · rw [hstripu]
      have hpre : u.data = (t.name ++ "(").data
          ++ (k1.data ++ '=' :: (v1.data ++ ',' :: ' ' :: (k2.data ++ '=' :: (v2.data ++ [')'])))) := by
        rw [hudata, hB]
        simp [strData_append, data_lparen]
      rw [hpre]
      exact startsWith_app _ _
  have hsplitp : splitOnceC '(' u.data = some (t.name.data, B ++ [')']) := by
    rw [hudata]
    exact splitOnce_sep (containsC_eq_false hnO) _
  have hrs : rstripP (fun c => c == ')') (B ++ [')']) = B := by
    rw [@rstrip_concat_true (fun c => c == ')') ')' rfl B]
    have hBshape : B = ((k1.data ++ '=' :: (v1.data ++ ',' :: ' ' :: k2.data)) ++ ['=']) ++ v2.data := by
      rw [hB]; simp
    rw [hBshape,
      @rstrip_append_lastfalse (fun c => c == ')') '=' rfl
        (k1.data ++ '=' :: (v1.data ++ ',' :: ' ' :: k2.data)) v2.data]
    rw [@rstrip_all_false (fun c => c == ')') v2.data
      (fun c hc => beq_eq_false_iff_ne.mpr ((hv2 c hc).2.1))]
  have hsegAall : ∀ c ∈ k1.data ++ '=' :: v1.data, pyIsSpace c = false := by
    intro x hx
    simp only [List.mem_append, List.mem_cons] at hx
    rcases hx with hx | rfl | hx
    · exact hk1W x hx
    · rfl
    · exact hv1W x hx
  have hXall : ∀ c ∈ k2.data ++ '=' :: v2.data, pyIsSpace c = false := by
    intro x hx
    simp only [List.mem_append, List.mem_cons] at hx
    rcases hx with hx | rfl | hx
    · exact hk2W x hx
    · rfl
    · exact hv2W x hx
  have hextract : extractArgs litEval (String.mk B)
      = [(k1, parseLit litEval v1), (k2, parseLit litEval v2)] := by
    unfold extractArgs
    rw [data_mk]
    have hsegA : containsC ',' (k1.data ++ '=' :: v1.data) = false := by
      apply containsC_eq_false
      intro x hx
      simp only [List.mem_append, List.mem_cons] at hx
      rcases hx with hx | rfl | hx
      · exact (hk1 x hx).1
      · simp
      · exact (hv1 x hx).1
    have hsegB : containsC ',' (' ' :: (k2.data ++ '=' :: v2.data)) = false := by
      apply containsC_eq_false
      intro x hx
      simp only [List.mem_cons, List.mem_append] at hx
      rcases hx with rfl | hx | rfl | hx
      · simp
      · exact (hk2 x hx).1
      · simp
      · exact (hv2 x hx).1
    have hBsplit : B = (k1.data ++ '=' :: v1.data) ++ ',' :: (' ' :: (k2.data ++ '=' :: v2.data)) := by
      rw [hB]; simp
    rw [hBsplit, splitC_sep hsegA, splitC_nosep hsegB]
    simp only [List.map_cons, List.map_nil, List.foldl_cons, List.foldl_nil]
    rw [strip_all_false hsegAall]
    have hX : stripP pyIsSpace (' ' :: (k2.data ++ '=' :: v2.data)) = k2.data ++ '=' :: v2.data := by
      unfold stripP
      rw [rstrip_cons_of_all (by simp) hXall]
      show List.dropWhile pyIsSpace (' ' :: (k2.data ++ '=' :: v2.data)) = _
      rw [List.dropWhile_cons]
      rw [show pyIsSpace ' ' = true from rfl]
      simp only [if_true]
      exact dropWhile_all_false _ _ hXall
    rw [hX]
    rw [argStep_seg litEval [] k1.data v1.data hk1E]
    simp only [strip_all_false hk1W, strip_all_false hv1W, strMk_data]
    rw [pyDictInsert_nil]
    rw [argStep_seg litEval _ k2.data v2.data hk2E]
    simp only [strip_all_false hk2W, strip_all_false hv2W, strMk_data]
    rw [pyDictInsert_single_ne hks]
    have hp1 : parseLit litEval v1
        = match litEval v1 with
          | some lit => lit
          | none => PyValue.str (String.mk (stripCharsL quoteChars v1.data)) := by
      unfold parseLit pyStrip pyStripQuotes
      simp only [data_mk, strip_all_false hv1W, strMk_data]
    have hp2 : parseLit litEval v2
        = match litEval v2 with
          | some lit => lit
          | none => PyValue.str (String.mk (stripCharsL quoteChars v2.data)) := by
      unfold parseLit pyStrip pyStripQuotes
      simp only [data_mk, strip_all_false hv2W, strMk_data]
    rw [hp1, hp2]
  simp only [dispatchLiteral, hfind, hsplitp]
  rw [hrs, hextract]

/-- Witness for C2: with a two-tool registry, the utterance
`create_ticket(project_key='TEST', summary='BugX')` skips the non-matching
first descriptor, matches `create_ticket`, extracts both pairs (the first
via successful literal evaluation, the second via the quote-stripping
fallback) and invokes the tool exactly once. -/
theorem claim_c2_witness :
    dispatchLiteral
        (fun s => if s = "\x27TEST\x27" then some (PyValue.str "TEST") else none)
        (fun _ _ => Except.ok (PyValue.dict []))
        [⟨"get_project_status", "", none, none⟩, ⟨"create_ticket", "", none, none⟩]
        "create_ticket(project_key=\x27TEST\x27, summary=\x27BugX\x27)"
      = some ([("create_ticket",
            [("project_key", PyValue.str "TEST"), ("summary", PyValue.str "BugX")])],
          McpResult.callResult (PyValue.dict []),
          some "create_ticket") := by
  have h := claim_c2_literal_dispatch
    (fun s => if s = "\x27TEST\x27" then some (PyValue.str "TEST") else none)
    (fun _ _ => Except.ok (PyValue.dict []))
    [⟨"get_project_status", "", none, none⟩] [] ⟨"create_ticket", "", none, none⟩
    "project_key" "\x27TEST\x27" "summary" "\x27BugX\x27"
    (by decide) (by decide) (by decide) (by decide) (by decide) (by decide) (by decide)
  exact h

/-! ## Claim C6: literal value interpretation with fallback -/

/-- C6: for a `key=value` pair of a literal-call utterance, the dispatcher
interprets the stripped value token with `eval`; when interpretation
succeeds the evaluated literal is used, and when it fails the raw stripped
token with surrounding quote characters removed is used instead. -/
theorem claim_c6_value_interpretation (litEval : String → Option PyValue)
    (key value : String)
    (hkey : ∀ c ∈ key.data, ¬c = ',' ∧ ¬c = '=' ∧ pyIsSpace c = false)
    (hval : ∀ c ∈ value.data, ¬c = ',') :
    (∀ lit, litEval (pyStrip value) = some lit →
      extractArgs litEval (key ++ "=" ++ value) = [(key, lit)]) ∧
    (litEval (pyStrip value) = none →
      extractArgs litEval (key ++ "=" ++ value)
        = [(key, PyValue.str (pyStripQuotes (pyStrip value)))]) := by
  have hkW : ∀ c ∈ key.data, pyIsSpace c = false := fun c hc => (hkey c hc).2.2
  have hkE : ∀ c ∈ key.data, ¬c = '=' := fun c hc => (hkey c hc).2.1
  have hkC : ∀ c ∈ key.data, ¬c = ',' := fun c hc => (hkey c hc).1
  have hdata : (key ++ "=" ++ value).data = key.data ++ '=' :: value.data := by
    simp [strData_append, data_eqch]
  have hnoc : containsC ',' (key.data ++ '=' :: value.data) = false := by
    apply containsC_eq_false
    intro x hx
    simp only [List.mem_append, List.mem_cons] at hx
    rcases hx with hx | rfl | hx
    · exact hkC x hx
    · simp
    · exact hval x hx
  have hcore : extractArgs litEval (key ++ "=" ++ value)
      = pyDictInsert [] (String.mk (stripP pyIsSpace key.data))
          (match litEval (String.mk (stripP pyIsSpace (rstripP pyIsSpace value.data))) with
           | some lit => lit
           | none => PyValue.str (String.mk
               (stripCharsL quoteChars (stripP pyIsSpace (rstripP pyIsSpace value.data))))) := by
    unfold extractArgs
    rw [hdata, splitC_nosep hnoc]
    simp only [List.map_cons, List.map_nil, List.foldl_cons, List.foldl_nil]
    rw [strip_seg hkW]
    exact argStep_seg litEval [] key.data (rstripP pyIsSpace value.data) hkE
  rw [strip_all_false hkW] at hcore
  rw [strip_rstrip] at hcore
  rw [strMk_data] at hcore
  rw [pyDictInsert_nil] at hcore
  constructor
  · intro lit hl
    rw [hcore]
    rw [show litEval (String.mk (stripP pyIsSpace value.data)) = some lit from hl]
  · intro hl
    rw [hcore]
    rw [show litEval (String.mk (stripP pyIsSpace value.data)) = none from hl]
    exact rfl

/-- Witness for C6: a quoted token with surrounding spaces is interpreted by
`eval` after stripping, and when `eval` fails, the quotes are stripped from
the raw token. -/
theorem claim_c6_witness :
    extractArgs (fun s => if s = "\x27TEST\x27" then some (PyValue.str "TEST") else none)
        ("project_key" ++ "=" ++ " \x27TEST\x27 ")
      = [("project_key", PyValue.str "TEST")]
    ∧ extractArgs (fun _ => none) ("k" ++ "=" ++ "\x27v\x27")
      = [("k", PyValue.str (pyStripQuotes (pyStrip "\x27v\x27")))] :=
  ⟨(claim_c6_value_interpretation
      (fun s => if s = "\x27TEST\x27" then some (PyValue.str "TEST") else none)
      "project_key" " \x27TEST\x27 " (by decide) (by decide)).1
      (PyValue.str "TEST") rfl,
   (claim_c6_value_interpretation (fun _ => none) "k" "\x27v\x27"
      (by decide) (by decide)).2 rfl⟩

/-! ## Claim C10: segments without an equals sign -/

/-- C10: argument extraction computes the same mapping as processing only
the comma-separated segments that contain `=` (so a segment without `=`
contributes nothing and raises no error); when no segment contains `=` the
mapping is empty; and the literal call `<name>()` invokes the tool exactly
once with an empty argument mapping. -/
theorem claim_c10_segments_without_equals
    (litEval : String → Option PyValue)
    (callTool : String → List (String × PyValue) → Except String PyValue) :
    (∀ s : String, extractArgs litEval s
      = (((splitC ',' s.data).map (stripP pyIsSpace)).filter
            (fun seg => containsC '=' seg)).foldl (argStep litEval) []) ∧
    (∀ s : String,
      (∀ seg ∈ (splitC ',' s.data).map (stripP pyIsSpace), containsC '=' seg = false) →
      extractArgs litEval s = []) ∧
    (∀ (reg1 reg2 : List ToolDesc) (t : ToolDesc),
      (∀ c ∈ t.name.data, ¬c = '(' ∧ pyIsSpace c = false) →
      (∀ t' ∈ reg1, startsWithL (t'.name ++ "(").data (t.name ++ "()").data = false) →
      dispatchLiteral litEval callTool (reg1 ++ t :: reg2) (t.name ++ "()")
        = some ([(t.name, [])], wrapCall callTool t.name [], some t.name)) := by
  have hfun : ∀ (l : List (List Char)) (b : List (String × PyValue)),
      l.foldl (fun acc a => if containsC '=' a then argStep litEval acc a else acc) b
        = l.foldl (argStep litEval) b := by
    intro l
    induction l with
    | nil => intro b; rfl
    | cons a l ih =>
      intro b
      simp only [List.foldl_cons]
      by_cases h : containsC '=' a = true
      · rw [if_pos h]
        exact ih _
      · have h' : containsC '=' a = false := by simpa using h
        rw [if_neg (by simp [h']), argStep_skip litEval b a h']
        exact ih _
  refine ⟨?_, ?_, ?_⟩
  · intro s
    unfold extractArgs
    rw [foldl_filter, hfun]
  · intro s h
    unfold extractArgs
    rw [← hfun]
    exact foldl_skip (argStep litEval) (fun seg => containsC '=' seg) _ [] h
  · intro reg1 reg2 t hname hmiss
    have hnO : ∀ c ∈ t.name.data, ¬c = '(' := fun c hc => (hname c hc).1
    have hnW : ∀ c ∈ t.name.data, pyIsSpace c = false := fun c hc => (hname c hc).2
    set u : String := t.name ++ "()" with hu
    have hudata : u.data = t.name.data ++ '(' :: ([] ++ [')']) := by
      rw [hu]
      simp [strData_append, data_parens]
    have hstripu : stripP pyIsSpace u.data = u.data := by
      rw [hudata]
      exact strip_eq_self_wrap hnW rfl rfl
    have hfind : findLitTool (reg1 ++ t :: reg2) u = some t := by
      unfold findLitTool
      apply find_first
      · intro x hx
        rw [hstripu]
        exact hmiss x hx
      · rw [hstripu]
        have hpre : u.data = (t.name ++ "(").data ++ [')'] := by
          rw [hudata]
          simp [strData_append, data_lparen]
        rw [hpre]
        exact startsWith_app _ _
    have hsplitp : splitOnceC '(' u.data = some (t.name.data, [')']) := by
      rw [hudata]
      exact splitOnce_sep (containsC_eq_false hnO) _
    simp only [dispatchLiteral, hfind, hsplitp]
    exact rfl

/-- Witness for C10: a no-argument literal call invokes the tool once with
an empty mapping, and a string whose segments carry no `=` extracts the
empty mapping without error. -/
theorem claim_c10_witness :
    dispatchLiteral (fun _ => none) (fun _ _ => Except.ok PyValue.pynone)
        [⟨"refresh_metadata", "", none, none⟩] "refresh_metadata()"
      = some ([("refresh_metadata", [])],
          McpResult.callResult PyValue.pynone, some "refresh_metadata")
    ∧ extractArgs (fun _ => none) "garbage, , no pairs here" = [] := by
  constructor
  · exact (claim_c10_segments_without_equals (fun _ => none)
      (fun _ _ => Except.ok PyValue.pynone)).2.2 [] []
      ⟨"refresh_metadata", "", none, none⟩ (by decide) (by decide)
  · exact (claim_c10_segments_without_equals (fun _ => none)
      (fun _ _ => Except.ok PyValue.pynone)).2.1 "garbage, , no pairs here" (by decide)

/-- Witness for C3: the four branch behaviours at concrete inputs — a
tool-call-wrapped error mapping selects the failure prompt; a plain string
payload falls through; the acknowledgment prompt is built for a truthy tool
name; the raw utterance is used when the tool name is null. -/
theorem claim_c3_witness :
    composeStage strStub dumpsStub "q" (some "t")
        (McpResult.callResult (PyValue.dict [("error", PyValue.str "x")]))
      = failureText strStub "q" (some "t") (PyValue.str "x")
    ∧ composeStage strStub dumpsStub "q" (some "t") (McpResult.plain (PyValue.str "hello"))
        = composeRest dumpsStub "q" (some "t") (PyValue.str "hello")
    ∧ composeRest dumpsStub "q" (some "t") (PyValue.str "hello")
        = "User asked: " ++ "q" ++ "\n\nTool result from \x27" ++ fmtOptStr (some "t") ++ "\x27:\n"
            ++ dumpsStub (PyValue.str "hello") ++ "\n\nAnswer concisely, acknowledging the tool use."
    ∧ composeRest dumpsStub "q" none (PyValue.str "hello") = "q" :=
  ⟨(claim_c3_composer_selection strStub dumpsStub "q" (some "t")).2.1 _ _ rfl,
   (claim_c3_composer_selection strStub dumpsStub "q" (some "t")).2.2.1 _ rfl,
   (claim_c3_composer_selection strStub dumpsStub "q" (some "t")).2.2.2.1 _ rfl,
   (claim_c3_composer_selection strStub dumpsStub "q" none).2.2.2.2 _ rfl⟩

end McpAssistant
